import Mathlib

/-
Verification of the STM32F7 embedded-flash driver core
(lib/stm32/f7/flash.c of libopencm3).

The driver is embedded shallowly as a state machine over the
memory-mapped flash-controller registers.  A machine state `St` carries
the last value written to each driver-written register (access-control
register ACR, control register CR, option-control register OPTCR)
together with the trace of externally observable events (register
writes, traced register reads, the data-synchronisation barrier, and
memory-mapped stores).  Reads of the status register and, in the
wait-state poll, of the access-control register are under hardware
control and may change between reads: those reads are driven by an
oracle list of successive read values, and a polling loop is a function
that consumes the oracle and returns `none` when the oracle is
exhausted without the exit condition being met (i.e. on that oracle the
loop does not terminate).  All register values are natural numbers
reduced modulo 2^32 at each register write, matching the uint32_t
arithmetic of the C source.
-/

namespace FlashF7

/-- All-ones mask of a 32-bit register: 2^32 - 1. -/
def mask32 : Nat := 4294967295

/-! Register bit-field constants.  The C source includes them from the
header libopencm3/stm32/flash.h, which is not part of the sources under
verification.  Modelled from the spec: the spec fixes the key constants
and the program-width encodings 0/1/2/3 and describes the fields
(latency field of ACR; program-enable, sector-erase, mass-erase,
sector-number, program-size, strobe and lock bits of CR; busy and the
five write-one-to-clear flags of SR; option-lock and option-start bits
of OPTCR); the concrete bit positions follow the STM32F7 reference
manual layout used by that header. -/

/-- Latency field of the access-control register (bits 0..3). -/
def FLASH_ACR_LATENCY_MASK : Nat := 15

/-- Program-enable bit of the control register (bit 0). -/
def FLASH_CR_PG : Nat := 1

/-- Sector-erase bit of the control register (bit 1). -/
def FLASH_CR_SER : Nat := 2

/-- Mass-erase bit of the control register (bit 2). -/
def FLASH_CR_MER : Nat := 4

/-- Shift of the sector-number field of the control register. -/
def FLASH_CR_SNB_SHIFT : Nat := 3

/-- Width mask of the sector-number field (5 bits: sectors up to 31,
covering the advertised 0-11 and 0-23 ranges). -/
def FLASH_CR_SNB_MASK : Nat := 31

/-- Shift of the program-size (parallelism) field of the control
register. -/
def FLASH_CR_PROGRAM_SHIFT : Nat := 8

/-- Width mask of the program-size field (2 bits). -/
def FLASH_CR_PROGRAM_MASK : Nat := 3

/-- Parallelism encoding for 8-bit programming. -/
def FLASH_CR_PROGRAM_X8 : Nat := 0

/-- Parallelism encoding for 16-bit programming. -/
def FLASH_CR_PROGRAM_X16 : Nat := 1

/-- Parallelism encoding for 32-bit programming. -/
def FLASH_CR_PROGRAM_X32 : Nat := 2

/-- Parallelism encoding for 64-bit programming. -/
def FLASH_CR_PROGRAM_X64 : Nat := 3

/-- Strobe (start) bit of the control register (bit 16). -/
def FLASH_CR_STRT : Nat := 65536

/-- Lock bit of the control register (bit 31). -/
def FLASH_CR_LOCK : Nat := 2147483648

/-- End-of-operation flag of the status register (bit 0). -/
def FLASH_SR_EOP : Nat := 1

/-- Write-protect-error flag of the status register (bit 4). -/
def FLASH_SR_WRPERR : Nat := 16

/-- Programming-alignment-error flag of the status register (bit 5). -/
def FLASH_SR_PGAERR : Nat := 32

/-- Programming-parallelism-error flag of the status register (bit 6). -/
def FLASH_SR_PGPERR : Nat := 64

/-- Erase-sequencing-error flag of the status register (bit 7). -/
def FLASH_SR_ERSERR : Nat := 128

/-- Busy flag of the status register (bit 16). -/
def FLASH_SR_BSY : Nat := 65536

/-- First program/erase-controller key (spec: 0x45670123). -/
def FLASH_KEYR_KEY1 : Nat := 0x45670123

/-- Second program/erase-controller key (spec: 0xCDEF89AB). -/
def FLASH_KEYR_KEY2 : Nat := 0xCDEF89AB

/-- First option-byte key (spec: 0x08192A3B). -/
def FLASH_OPTKEYR_KEY1 : Nat := 0x08192A3B

/-- Second option-byte key (spec: 0x4C5D6E7F). -/
def FLASH_OPTKEYR_KEY2 : Nat := 0x4C5D6E7F

/-- Option-lock bit of the option-control register (bit 0). -/
def FLASH_OPTCR_OPTLOCK : Nat := 1

/-- Option-start bit of the option-control register (bit 1). -/
def FLASH_OPTCR_OPTSTRT : Nat := 2

/-- The five write-one-to-clear flags of the status register. -/
def FLASH_SR_W1C_MASK : Nat :=
  FLASH_SR_EOP ||| FLASH_SR_WRPERR ||| FLASH_SR_PGAERR |||
    FLASH_SR_PGPERR ||| FLASH_SR_ERSERR

/-- Externally observable events of a driver run: the
data-synchronisation barrier, hardware-controlled reads (status
register, access-control register during the wait-state poll), register
writes, and width-tagged memory-mapped stores (nbytes is the store
width in bytes). -/
inductive Ev where
  | dsb
  | readSR (v : Nat)
  | readACR (v : Nat)
  | writeACR (v : Nat)
  | writeCR (v : Nat)
  | writeKEYR (v : Nat)
  | writeOPTKEYR (v : Nat)
  | writeOPTCR (v : Nat)
  | store (nbytes addr val : Nat)
  deriving DecidableEq

/-- Machine state: last value written to each driver-written register,
and the event trace so far (oldest first). -/
structure St where
  acr : Nat
  cr : Nat
  optcr : Nat
  tr : List Ev
  deriving DecidableEq

/-- Append one observable event. -/
def emit (s : St) (e : Ev) : St :=
  { s with tr := s.tr ++ [e] }

/-- Write the control register (value truncated to 32 bits). -/
def writeCR (s : St) (v : Nat) : St :=
  { s with cr := v &&& mask32, tr := s.tr ++ [Ev.writeCR (v &&& mask32)] }

/-- C statement FLASH_CR |= v (read-modify-write). -/
def orCR (s : St) (v : Nat) : St :=
  writeCR s (s.cr ||| v)

/-- C statement FLASH_CR &= ~m for a mask m below 2^32. -/
def andNotCR (s : St) (m : Nat) : St :=
  writeCR s (s.cr &&& (mask32 ^^^ m))

/-- Write the option-control register (value truncated to 32 bits). -/
def writeOPTCR (s : St) (v : Nat) : St :=
  { s with optcr := v &&& mask32,
           tr := s.tr ++ [Ev.writeOPTCR (v &&& mask32)] }

/-- The status-register polling loop of
flash_wait_for_last_operation, driven by the oracle list of successive
status-register read values: reads while the busy flag is set, returns
the read events and the unconsumed oracle on the first non-busy read,
and `none` if the oracle is exhausted (the loop spinning forever). -/
def pollSR : List Nat → Option (List Ev × List Nat)
  | [] => none
  | v :: rest =>
    if v &&& FLASH_SR_BSY = FLASH_SR_BSY then
      match pollSR rest with
      | none => none
      | some (evs, r) => some (Ev.readSR v :: evs, r)
    else
      some ([Ev.readSR v], rest)

/-- flash_pipeline_stall: emit the data-synchronisation barrier. -/
def flash_pipeline_stall (s : St) : St :=
  emit s Ev.dsb

/-- flash_wait_for_last_operation: stall the pipeline, then spin on the
busy flag of the status register. -/
def flash_wait_for_last_operation (s : St) (srs : List Nat) :
    Option (St × List Nat) :=
  match pollSR srs with
  | none => none
  | some (evs, rest) =>
    some ({ flash_pipeline_stall s with
              tr := (flash_pipeline_stall s).tr ++ evs }, rest)

/-- flash_set_program_size: clear then set the program-size field of
the control register. -/
def flash_set_program_size (s : St) (psize : Nat) : St :=
  let s1 := andNotCR s (FLASH_CR_PROGRAM_MASK <<< FLASH_CR_PROGRAM_SHIFT)
  orCR s1 (psize <<< FLASH_CR_PROGRAM_SHIFT)

/-- flash_unlock: set the lock bit to reset the key state machine, then
write the two keys to the key register. -/
def flash_unlock (s : St) : St :=
  let s1 := orCR s FLASH_CR_LOCK
  let s2 := emit s1 (Ev.writeKEYR FLASH_KEYR_KEY1)
  emit s2 (Ev.writeKEYR FLASH_KEYR_KEY2)

/-- flash_lock: set the lock bit in the control register. -/
def flash_lock (s : St) : St :=
  orCR s FLASH_CR_LOCK

/-- Select the key-register write events of a trace. -/
def keyrWrites (tr : List Ev) : List Ev :=
  tr.filter fun e =>
    match e with
    | Ev.writeKEYR _ => true
    | _ => false

/-- Select the option-key-register write events of a trace. -/
def optkeyrWrites (tr : List Ev) : List Ev :=
  tr.filter fun e =>
    match e with
    | Ev.writeOPTKEYR _ => true
    | _ => false

/-- Select the memory-mapped store events of a trace. -/
def storeEvents (tr : List Ev) : List Ev :=
  tr.filter fun e =>
    match e with
    | Ev.store _ _ _ => true
    | _ => false

/-- flash_clear_eop_flag: FLASH_SR |= FLASH_SR_EOP, a read-modify-write
of the status register.  The status register is write-one-to-clear on
its five flag bits: writing value w to it clears exactly the flags set
in w; the busy bit ignores writes.  Argument and result are the status
register value. -/
def flash_clear_eop_flag (sr : Nat) : Nat :=
  sr &&& (mask32 ^^^ (((sr ||| FLASH_SR_EOP) &&& mask32) &&& FLASH_SR_W1C_MASK))

/-- flash_clear_pgperr_flag: FLASH_SR |= FLASH_SR_PGPERR under
write-one-to-clear semantics. -/
def flash_clear_pgperr_flag (sr : Nat) : Nat :=
  sr &&& (mask32 ^^^ (((sr ||| FLASH_SR_PGPERR) &&& mask32) &&& FLASH_SR_W1C_MASK))

/-- flash_clear_pgaerr_flag: FLASH_SR |= FLASH_SR_PGAERR under
write-one-to-clear semantics. -/
def flash_clear_pgaerr_flag (sr : Nat) : Nat :=
  sr &&& (mask32 ^^^ (((sr ||| FLASH_SR_PGAERR) &&& mask32) &&& FLASH_SR_W1C_MASK))

/-- flash_clear_wrperr_flag: FLASH_SR |= FLASH_SR_WRPERR under
write-one-to-clear semantics. -/
def flash_clear_wrperr_flag (sr : Nat) : Nat :=
  sr &&& (mask32 ^^^ (((sr ||| FLASH_SR_WRPERR) &&& mask32) &&& FLASH_SR_W1C_MASK))

/-- flash_clear_erserr_flag: FLASH_SR |= FLASH_SR_ERSERR under
write-one-to-clear semantics. -/
def flash_clear_erserr_flag (sr : Nat) : Nat :=
  sr &&& (mask32 ^^^ (((sr ||| FLASH_SR_ERSERR) &&& mask32) &&& FLASH_SR_W1C_MASK))

/-- The read-modify-write part of flash_set_ws: read ACR, clear the
latency field, OR in ws, write back.  The argument ws is truncated to
32 bits as by its uint32_t parameter type. -/
def flash_set_ws_write (s : St) (ws : Nat) : St :=
  let wsv := ws &&& mask32
  let s1 := emit s (Ev.readACR s.acr)
  let reg32 := (s.acr &&& (mask32 ^^^ FLASH_ACR_LATENCY_MASK)) ||| wsv
  { s1 with acr := reg32 &&& mask32,
            tr := s1.tr ++ [Ev.writeACR (reg32 &&& mask32)] }

/-- The wait-state read-back loop of flash_set_ws, driven by the oracle
list of successive ACR read values: reads while the masked latency
field differs from ws, returns the read events and the unconsumed
oracle on the first read whose latency field equals ws, and `none` if
the oracle is exhausted (the loop spinning forever). -/
def pollACR (ws : Nat) : List Nat → Option (List Ev × List Nat)
  | [] => none
  | v :: rest =>
    if v &&& FLASH_ACR_LATENCY_MASK ≠ ws then
      match pollACR ws rest with
      | none => none
      | some (evs, r) => some (Ev.readACR v :: evs, r)
    else
      some ([Ev.readACR v], rest)

/-- flash_set_ws: read-modify-write the latency field of ACR, then spin
until a read of ACR shows the latency field equal to ws. -/
def flash_set_ws (s : St) (ws : Nat) (acrs : List Nat) :
    Option (St × List Nat) :=
  let s1 := flash_set_ws_write s ws
  match pollACR (ws &&& mask32) acrs with
  | none => none
  | some (evs, rest) => some ({ s1 with tr := s1.tr ++ evs }, rest)

/-- flash_erase_all_sectors: wait idle, set the program size, set the
mass-erase bit, set the strobe bit, wait idle, clear the mass-erase
bit. -/
def flash_erase_all_sectors (s : St) (program_size : Nat)
    (srs : List Nat) : Option (St × List Nat) :=
  match flash_wait_for_last_operation s srs with
  | none => none
  | some (s1, srs1) =>
    let s2 := flash_set_program_size s1 program_size
    let s3 := orCR s2 FLASH_CR_MER
    let s4 := orCR s3 FLASH_CR_STRT
    match flash_wait_for_last_operation s4 srs1 with
    | none => none
    | some (s5, srs2) => some (andNotCR s5 FLASH_CR_MER, srs2)

/-- flash_erase_sector: wait idle, set the program size, clear then set
the sector-number field (the sector argument is truncated to uint8_t
and masked with the field mask), set the sector-erase bit, set the
strobe bit, wait idle, clear the sector-erase bit, clear the
sector-number field. -/
def flash_erase_sector (s : St) (sector program_size : Nat)
    (srs : List Nat) : Option (St × List Nat) :=
  let sec := sector &&& 255
  match flash_wait_for_last_operation s srs with
  | none => none
  | some (s1, srs1) =>
    let s2 := flash_set_program_size s1 program_size
    let s3 := andNotCR s2 (FLASH_CR_SNB_MASK <<< FLASH_CR_SNB_SHIFT)
    let s4 := orCR s3 ((sec &&& FLASH_CR_SNB_MASK) <<< FLASH_CR_SNB_SHIFT)
    let s5 := orCR s4 FLASH_CR_SER
    let s6 := orCR s5 FLASH_CR_STRT
    match flash_wait_for_last_operation s6 srs1 with
    | none => none
    | some (s7, srs2) =>
      let s8 := andNotCR s7 FLASH_CR_SER
      some (andNotCR s8 (FLASH_CR_SNB_MASK <<< FLASH_CR_SNB_SHIFT), srs2)

/-- flash_program_double_word: wait idle, set 64-bit parallelism, set
the program-enable bit, store the datum (truncated to uint64_t) at the
target address with a 64-bit store, wait idle, clear the
program-enable bit. -/
def flash_program_double_word (s : St) (address data : Nat)
    (srs : List Nat) : Option (St × List Nat) :=
  match flash_wait_for_last_operation s srs with
  | none => none
  | some (s1, srs1) =>
    let s2 := flash_set_program_size s1 FLASH_CR_PROGRAM_X64
    let s3 := orCR s2 FLASH_CR_PG
    let s4 := emit s3 (Ev.store 8 (address &&& mask32)
                         (data &&& 18446744073709551615))
    match flash_wait_for_last_operation s4 srs1 with
    | none => none
    | some (s5, srs2) => some (andNotCR s5 FLASH_CR_PG, srs2)

/-- flash_program_word: wait idle, set 32-bit parallelism, set the
program-enable bit, store the datum (uint32_t) with a 32-bit store,
wait idle, clear the program-enable bit. -/
def flash_program_word (s : St) (address data : Nat)
    (srs : List Nat) : Option (St × List Nat) :=
  match flash_wait_for_last_operation s srs with
  | none => none
  | some (s1, srs1) =>
    let s2 := flash_set_program_size s1 FLASH_CR_PROGRAM_X32
    let s3 := orCR s2 FLASH_CR_PG
    let s4 := emit s3 (Ev.store 4 (address &&& mask32) (data &&& mask32))
    match flash_wait_for_last_operation s4 srs1 with
    | none => none
    | some (s5, srs2) => some (andNotCR s5 FLASH_CR_PG, srs2)

/-- flash_program_half_word: wait idle, set 16-bit parallelism, set the
program-enable bit, store the datum (uint16_t) with a 16-bit store,
wait idle, clear the program-enable bit. -/
def flash_program_half_word (s : St) (address data : Nat)
    (srs : List Nat) : Option (St × List Nat) :=
  match flash_wait_for_last_operation s srs with
  | none => none
  | some (s1, srs1) =>
    let s2 := flash_set_program_size s1 FLASH_CR_PROGRAM_X16
    let s3 := orCR s2 FLASH_CR_PG
    let s4 := emit s3 (Ev.store 2 (address &&& mask32) (data &&& 65535))
    match flash_wait_for_last_operation s4 srs1 with
    | none => none
    | some (s5, srs2) => some (andNotCR s5 FLASH_CR_PG, srs2)

/-- flash_program_byte: wait idle, set 8-bit parallelism, set the
program-enable bit, store the datum (uint8_t) with an 8-bit store,
wait idle, clear the program-enable bit. -/
def flash_program_byte (s : St) (address data : Nat)
    (srs : List Nat) : Option (St × List Nat) :=
  match flash_wait_for_last_operation s srs with
  | none => none
  | some (s1, srs1) =>
    let s2 := flash_set_program_size s1 FLASH_CR_PROGRAM_X8
    let s3 := orCR s2 FLASH_CR_PG
    let s4 := emit s3 (Ev.store 1 (address &&& mask32) (data &&& 255))
    match flash_wait_for_last_operation s4 srs1 with
    | none => none
    | some (s5, srs2) => some (andNotCR s5 FLASH_CR_PG, srs2)

/-- flash_program: program a block byte by byte, the i-th byte with
flash_program_byte at address + i (uint32_t addition).  The data block
is a list of bytes; the C length argument is its length. -/
def flash_program (s : St) (address : Nat) (data : List Nat)
    (srs : List Nat) : Option (St × List Nat) :=
  match data with
  | [] => some (s, srs)
  | d :: rest =>
    match flash_program_byte s address d srs with
    | none => none
    | some (s1, srs1) =>
      flash_program s1 ((address + 1) &&& mask32) rest srs1

/-- flash_unlock_option_bytes: set the option-lock bit to reset the key
state machine, then write the two option keys to the option-key
register. -/
def flash_unlock_option_bytes (s : St) : St :=
  let s1 := writeOPTCR s (s.optcr ||| FLASH_OPTCR_OPTLOCK)
  let s2 := emit s1 (Ev.writeOPTKEYR FLASH_OPTKEYR_KEY1)
  emit s2 (Ev.writeOPTKEYR FLASH_OPTKEYR_KEY2)

/-- flash_program_option_bytes: wait idle; if the option-lock bit of
OPTCR is set, run the option-byte unlock; write the datum with its low
two bits masked to zero to OPTCR; set the option-start bit
(read-modify-write); wait idle. -/
def flash_program_option_bytes (s : St) (data : Nat)
    (srs : List Nat) : Option (St × List Nat) :=
  match flash_wait_for_last_operation s srs with
  | none => none
  | some (s1, srs1) =>
    let s2 := if s1.optcr &&& FLASH_OPTCR_OPTLOCK ≠ 0 then
                flash_unlock_option_bytes s1
              else s1
    let s3 := writeOPTCR s2 ((data &&& mask32) &&& (mask32 ^^^ 3))
    let s4 := writeOPTCR s3 (s3.optcr ||| FLASH_OPTCR_OPTSTRT)
    match flash_wait_for_last_operation s4 srs1 with
    | none => none
    | some (s5, srs2) => some (s5, srs2)

/-! Derived values of the control register along a program primitive,
as functions of the control-register value at entry and the
parallelism encoding. -/

/-- Control register after the field-clearing write of
flash_set_program_size. -/
def crPsize1 (c : Nat) : Nat :=
  (c &&& (mask32 ^^^ (FLASH_CR_PROGRAM_MASK <<< FLASH_CR_PROGRAM_SHIFT))) &&& mask32

/-- Control register after the field-setting write of
flash_set_program_size with encoding enc. -/
def crPsize2 (c enc : Nat) : Nat :=
  (crPsize1 c ||| (enc <<< FLASH_CR_PROGRAM_SHIFT)) &&& mask32

/-- Control register after setting the program-enable bit. -/
def crPG (c enc : Nat) : Nat :=
  (crPsize2 c enc ||| FLASH_CR_PG) &&& mask32

/-- Control register after clearing the program-enable bit at the end
of a program primitive. -/
def crPGoff (c enc : Nat) : Nat :=
  (crPG c enc &&& (mask32 ^^^ FLASH_CR_PG)) &&& mask32

/-- The status-register read values consumed by one terminating busy
poll: a possibly empty run of busy reads followed by one non-busy
read. -/
def WaitReads (r : List Nat) : Prop :=
  ∃ pre v, r = pre ++ [v] ∧
    (∀ u ∈ pre, u &&& FLASH_SR_BSY = FLASH_SR_BSY) ∧
    v &&& FLASH_SR_BSY ≠ FLASH_SR_BSY

/-- The full event block of one program primitive: wait idle (barrier
plus the busy-poll reads r1), the two program-size writes, the
program-enable write, the single width-tagged store, wait idle
(barrier plus reads r2), the program-disable write. -/
def progEvents (cr0 enc nbytes addr dval : Nat) (r1 r2 : List Nat) :
    List Ev :=
  Ev.dsb :: (r1.map Ev.readSR ++
    (Ev.writeCR (crPsize1 cr0) :: Ev.writeCR (crPsize2 cr0 enc) ::
      Ev.writeCR (crPG cr0 enc) :: Ev.store nbytes addr dval :: Ev.dsb ::
        (r2.map Ev.readSR ++ [Ev.writeCR (crPGoff cr0 enc)])))

/-! Generic bit-manipulation lemmas used throughout. -/

lemma lor_land (a b c : Nat) :
    (a ||| b) &&& c = (a &&& c) ||| (b &&& c) := by
  apply Nat.eq_of_testBit_eq
  intro i
  simp [Nat.testBit_land, Nat.testBit_lor, Bool.and_or_distrib_right]

lemma land_land (a m n : Nat) : (a &&& m) &&& n = a &&& (m &&& n) := by
  apply Nat.eq_of_testBit_eq
  intro i
  simp [Nat.testBit_land, Bool.and_assoc]

lemma shl_land_lt (p n k : Nat) (hk : k < 2 ^ n) : (p <<< n) &&& k = 0 := by
  apply Nat.eq_of_testBit_eq
  intro i
  simp only [Nat.testBit_land, Nat.testBit_shiftLeft, Nat.zero_testBit]
  by_cases h : n ≤ i
  · have hki : k.testBit i = false :=
      Nat.testBit_lt_two_pow
        (lt_of_lt_of_le hk (Nat.pow_le_pow_right (by norm_num) h))
    simp [hki]
  · simp [h]

/-- A status-register write of value (sr ||| F) for a flag selection F
within the write-one-to-clear mask leaves the register with every
write-one-to-clear flag cleared, whatever was pending. -/
lemma w1c_clear (F sr : Nat) (hF : F &&& FLASH_SR_W1C_MASK = F) :
    sr &&& (mask32 ^^^ (((sr ||| F) &&& mask32) &&& FLASH_SR_W1C_MASK)) =
      sr &&& (mask32 ^^^ FLASH_SR_W1C_MASK) := by
  apply Nat.eq_of_testBit_eq
  intro i
  have hf := congrArg (fun n => Nat.testBit n i) hF
  have hw := congrArg (fun n => Nat.testBit n i)
    (show FLASH_SR_W1C_MASK &&& mask32 = FLASH_SR_W1C_MASK by decide)
  simp only [Nat.testBit_land] at hf hw
  simp only [Nat.testBit_land, Nat.testBit_lor, Nat.testBit_xor]
  cases ha : sr.testBit i <;> cases hb : F.testBit i <;>
    cases hc : FLASH_SR_W1C_MASK.testBit i <;>
      cases hm : mask32.testBit i <;> simp_all

/-- Characterisation of a terminating status-register poll: the oracle
splits into a busy run, the final non-busy read, and the unconsumed
remainder, and the emitted events are exactly the corresponding
reads. -/
lemma pollSR_spec (srs : List Nat) :
    ∀ {evs : List Ev} {rest : List Nat}, pollSR srs = some (evs, rest) →
      ∃ pre v, srs = pre ++ v :: rest ∧
        evs = (pre ++ [v]).map Ev.readSR ∧
        (∀ u ∈ pre, u &&& FLASH_SR_BSY = FLASH_SR_BSY) ∧
        v &&& FLASH_SR_BSY ≠ FLASH_SR_BSY := by
  induction srs with
  | nil => intro evs rest h; simp [pollSR] at h
  | cons v tail ih =>
    intro evs rest h
    rw [pollSR] at h
    by_cases hb : v &&& FLASH_SR_BSY = FLASH_SR_BSY
    · rw [if_pos hb] at h
      cases hp : pollSR tail with
      | none => rw [hp] at h; simp at h
      | some p =>
        rw [hp] at h
        obtain ⟨evs0, r⟩ := p
        simp only [Option.some.injEq, Prod.mk.injEq] at h
        obtain ⟨hevs, hrest⟩ := h
        obtain ⟨pre0, v0, hsrs, hevs0, hpre0, hv0⟩ := ih hp
        refine ⟨v :: pre0, v0, ?_, ?_, ?_, hv0⟩
        · simp [hsrs, hrest.symm]
        · simp [← hevs, hevs0]
        · intro u hu
          rcases List.mem_cons.mp hu with h1 | h2
          · exact h1 ▸ hb
          · exact hpre0 u h2
    · rw [if_neg hb] at h
      simp only [Option.some.injEq, Prod.mk.injEq] at h
      exact ⟨[], v, by simp [h.2.symm], by simp [← h.1], by simp, hb⟩

/-- Characterisation of a returning flash_wait_for_last_operation: the
registers are untouched, the trace grows by the barrier followed by
the poll reads, the consumed oracle is a busy run closed by a
non-busy read. -/
lemma wflo_spec {s : St} {srs : List Nat} {s1 : St} {rest : List Nat}
    (h : flash_wait_for_last_operation s srs = some (s1, rest)) :
    ∃ pre v, srs = pre ++ v :: rest ∧
      s1.acr = s.acr ∧ s1.cr = s.cr ∧ s1.optcr = s.optcr ∧
      s1.tr = s.tr ++ Ev.dsb :: (pre ++ [v]).map Ev.readSR ∧
      (∀ u ∈ pre, u &&& FLASH_SR_BSY = FLASH_SR_BSY) ∧
      v &&& FLASH_SR_BSY ≠ FLASH_SR_BSY := by
  rw [flash_wait_for_last_operation] at h
  cases hp : pollSR srs with
  | none => rw [hp] at h; simp at h
  | some p =>
    rw [hp] at h
    obtain ⟨evs, r⟩ := p
    simp only [Option.some.injEq, Prod.mk.injEq] at h
    obtain ⟨pre, v, hsrs, hevs, hpre, hv⟩ := pollSR_spec srs hp
    refine ⟨pre, v, ?_, ?_, ?_, ?_, ?_, hpre, hv⟩ <;>
      simp [← h.1, ← h.2, flash_pipeline_stall, emit, hevs, hsrs]

/-- Full characterisation of a returning flash_program_byte run: the
trace grows by exactly one 8-bit program cycle, the control register
ends at crPGoff, the other registers are untouched. -/
lemma program_byte_spec {s : St} {addr d : Nat} {srs : List Nat}
    {s1 : St} {rest : List Nat}
    (h : flash_program_byte s addr d srs = some (s1, rest)) :
    ∃ r1 r2, WaitReads r1 ∧ WaitReads r2 ∧
      s1.tr = s.tr ++ progEvents s.cr FLASH_CR_PROGRAM_X8 1
        (addr &&& mask32) (d &&& 255) r1 r2 ∧
      s1.cr = crPGoff s.cr FLASH_CR_PROGRAM_X8 ∧
      s1.acr = s.acr ∧ s1.optcr = s.optcr := by
  simp only [flash_program_byte] at h
  cases h1 : flash_wait_for_last_operation s srs with
  | none => rw [h1] at h; simp at h
  | some p1 =>
    obtain ⟨sa, srs1⟩ := p1
    rw [h1] at h
    obtain ⟨pre1, v1, hsrs1, hacr1, hcr1, hopt1, htr1, hpre1, hv1⟩ :=
      wflo_spec h1
    simp only at h
    cases h2 : flash_wait_for_last_operation
        (emit (orCR (flash_set_program_size sa FLASH_CR_PROGRAM_X8)
          FLASH_CR_PG) (Ev.store 1 (addr &&& mask32) (d &&& 255))) srs1 with
    | none => rw [h2] at h; simp at h
    | some p2 =>
      obtain ⟨sb, srs2⟩ := p2
      rw [h2] at h
      obtain ⟨pre2, v2, hsrs2, hacr2, hcr2, hopt2, htr2, hpre2, hv2⟩ :=
        wflo_spec h2
      simp only [Option.some.injEq, Prod.mk.injEq] at h
      obtain ⟨hs1, hrest⟩ := h
      refine ⟨pre1 ++ [v1], pre2 ++ [v2],
        ⟨pre1, v1, rfl, hpre1, hv1⟩, ⟨pre2, v2, rfl, hpre2, hv2⟩,
        ?_, ?_, ?_, ?_⟩ <;>
        simp [← hs1, andNotCR, writeCR, orCR, emit,
          flash_set_program_size, htr2, htr1, hcr2, hcr1, hacr2, hacr1,
          hopt2, hopt1, progEvents, crPsize1, crPsize2, crPG, crPGoff]

/-- Full characterisation of a returning flash_program_half_word run. -/
lemma program_half_word_spec {s : St} {addr d : Nat} {srs : List Nat}
    {s1 : St} {rest : List Nat}
    (h : flash_program_half_word s addr d srs = some (s1, rest)) :
    ∃ r1 r2, WaitReads r1 ∧ WaitReads r2 ∧
      s1.tr = s.tr ++ progEvents s.cr FLASH_CR_PROGRAM_X16 2
        (addr &&& mask32) (d &&& 65535) r1 r2 ∧
      s1.cr = crPGoff s.cr FLASH_CR_PROGRAM_X16 ∧
      s1.acr = s.acr ∧ s1.optcr = s.optcr := by
  simp only [flash_program_half_word] at h
  cases h1 : flash_wait_for_last_operation s srs with
  | none => rw [h1] at h; simp at h
  | some p1 =>
    obtain ⟨sa, srs1⟩ := p1
    rw [h1] at h
    obtain ⟨pre1, v1, hsrs1, hacr1, hcr1, hopt1, htr1, hpre1, hv1⟩ :=
      wflo_spec h1
    simp only at h
    cases h2 : flash_wait_for_last_operation
        (emit (orCR (flash_set_program_size sa FLASH_CR_PROGRAM_X16)
          FLASH_CR_PG) (Ev.store 2 (addr &&& mask32) (d &&& 65535))) srs1 with
    | none => rw [h2] at h; simp at h
    | some p2 =>
      obtain ⟨sb, srs2⟩ := p2
      rw [h2] at h
      obtain ⟨pre2, v2, hsrs2, hacr2, hcr2, hopt2, htr2, hpre2, hv2⟩ :=
        wflo_spec h2
      simp only [Option.some.injEq, Prod.mk.injEq] at h
      obtain ⟨hs1, hrest⟩ := h
      refine ⟨pre1 ++ [v1], pre2 ++ [v2],
        ⟨pre1, v1, rfl, hpre1, hv1⟩, ⟨pre2, v2, rfl, hpre2, hv2⟩,
        ?_, ?_, ?_, ?_⟩ <;>
        simp [← hs1, andNotCR, writeCR, orCR, emit,
          flash_set_program_size, htr2, htr1, hcr2, hcr1, hacr2, hacr1,
          hopt2, hopt1, progEvents, crPsize1, crPsize2, crPG, crPGoff]

/-- Full characterisation of a returning flash_program_word run. -/
lemma program_word_spec {s : St} {addr d : Nat} {srs : List Nat}
    {s1 : St} {rest : List Nat}
    (h : flash_program_word s addr d srs = some (s1, rest)) :
    ∃ r1 r2, WaitReads r1 ∧ WaitReads r2 ∧
      s1.tr = s.tr ++ progEvents s.cr FLASH_CR_PROGRAM_X32 4
        (addr &&& mask32) (d &&& mask32) r1 r2 ∧
      s1.cr = crPGoff s.cr FLASH_CR_PROGRAM_X32 ∧
      s1.acr = s.acr ∧ s1.optcr = s.optcr := by
  simp only [flash_program_word] at h
  cases h1 : flash_wait_for_last_operation s srs with
  | none => rw [h1] at h; simp at h
  | some p1 =>
    obtain ⟨sa, srs1⟩ := p1
    rw [h1] at h
    obtain ⟨pre1, v1, hsrs1, hacr1, hcr1, hopt1, htr1, hpre1, hv1⟩ :=
      wflo_spec h1
    simp only at h
    cases h2 : flash_wait_for_last_operation
        (emit (orCR (flash_set_program_size sa FLASH_CR_PROGRAM_X32)
          FLASH_CR_PG) (Ev.store 4 (addr &&& mask32) (d &&& mask32))) srs1 with
    | none => rw [h2] at h; simp at h
    | some p2 =>
      obtain ⟨sb, srs2⟩ := p2
      rw [h2] at h
      obtain ⟨pre2, v2, hsrs2, hacr2, hcr2, hopt2, htr2, hpre2, hv2⟩ :=
        wflo_spec h2
      simp only [Option.some.injEq, Prod.mk.injEq] at h
      obtain ⟨hs1, hrest⟩ := h
      refine ⟨pre1 ++ [v1], pre2 ++ [v2],
        ⟨pre1, v1, rfl, hpre1, hv1⟩, ⟨pre2, v2, rfl, hpre2, hv2⟩,
        ?_, ?_, ?_, ?_⟩ <;>
        simp [← hs1, andNotCR, writeCR, orCR, emit,
          flash_set_program_size, htr2, htr1, hcr2, hcr1, hacr2, hacr1,
          hopt2, hopt1, progEvents, crPsize1, crPsize2, crPG, crPGoff]

/-- Full characterisation of a returning flash_program_double_word
run. -/
lemma program_double_word_spec {s : St} {addr d : Nat} {srs : List Nat}
    {s1 : St} {rest : List Nat}
    (h : flash_program_double_word s addr d srs = some (s1, rest)) :
    ∃ r1 r2, WaitReads r1 ∧ WaitReads r2 ∧
      s1.tr = s.tr ++ progEvents s.cr FLASH_CR_PROGRAM_X64 8
        (addr &&& mask32) (d &&& 18446744073709551615) r1 r2 ∧
      s1.cr = crPGoff s.cr FLASH_CR_PROGRAM_X64 ∧
      s1.acr = s.acr ∧ s1.optcr = s.optcr := by
  simp only [flash_program_double_word] at h
  cases h1 : flash_wait_for_last_operation s srs with
  | none => rw [h1] at h; simp at h
  | some p1 =>
    obtain ⟨sa, srs1⟩ := p1
    rw [h1] at h
    obtain ⟨pre1, v1, hsrs1, hacr1, hcr1, hopt1, htr1, hpre1, hv1⟩ :=
      wflo_spec h1
    simp only at h
    cases h2 : flash_wait_for_last_operation
        (emit (orCR (flash_set_program_size sa FLASH_CR_PROGRAM_X64)
          FLASH_CR_PG) (Ev.store 8 (addr &&& mask32)
            (d &&& 18446744073709551615))) srs1 with
    | none => rw [h2] at h; simp at h
    | some p2 =>
      obtain ⟨sb, srs2⟩ := p2
      rw [h2] at h
      obtain ⟨pre2, v2, hsrs2, hacr2, hcr2, hopt2, htr2, hpre2, hv2⟩ :=
        wflo_spec h2
      simp only [Option.some.injEq, Prod.mk.injEq] at h
      obtain ⟨hs1, hrest⟩ := h
      refine ⟨pre1 ++ [v1], pre2 ++ [v2],
        ⟨pre1, v1, rfl, hpre1, hv1⟩, ⟨pre2, v2, rfl, hpre2, hv2⟩,
        ?_, ?_, ?_, ?_⟩ <;>
        simp [← hs1, andNotCR, writeCR, orCR, emit,
          flash_set_program_size, htr2, htr1, hcr2, hcr1, hacr2, hacr1,
          hopt2, hopt1, progEvents, crPsize1, crPsize2, crPG, crPGoff]

/-- The four program widths of the driver. -/
inductive Width where
  | x8
  | x16
  | x32
  | x64
  deriving DecidableEq

/-- Parallelism encoding of a width (0/1/2/3). -/
def Width.enc : Width → Nat
  | .x8 => FLASH_CR_PROGRAM_X8
  | .x16 => FLASH_CR_PROGRAM_X16
  | .x32 => FLASH_CR_PROGRAM_X32
  | .x64 => FLASH_CR_PROGRAM_X64

/-- Store width of a width, in bytes. -/
def Width.nbytes : Width → Nat
  | .x8 => 1
  | .x16 => 2
  | .x32 => 4
  | .x64 => 8

/-- Datum mask of a width (the C parameter type). -/
def Width.dmask : Width → Nat
  | .x8 => 255
  | .x16 => 65535
  | .x32 => mask32
  | .x64 => 18446744073709551615

/-- The program primitive of each width. -/
def progPrim : Width → St → Nat → Nat → List Nat → Option (St × List Nat)
  | .x8 => flash_program_byte
  | .x16 => flash_program_half_word
  | .x32 => flash_program_word
  | .x64 => flash_program_double_word

/-- No store event among status-register read events. -/
lemma storeEvents_readSRs (r : List Nat) :
    storeEvents (r.map Ev.readSR) = [] := by
  induction r with
  | nil => rfl
  | cons a t ih => simp [storeEvents, List.filter, ih]

/-- The store events of one program-cycle event block: exactly the one
data store. -/
lemma storeEvents_progEvents (cr0 enc nbytes addr dval : Nat)
    (r1 r2 : List Nat) :
    storeEvents (progEvents cr0 enc nbytes addr dval r1 r2) =
      [Ev.store nbytes addr dval] := by
  have h1 := storeEvents_readSRs r1
  have h2 := storeEvents_readSRs r2
  simp only [storeEvents] at h1 h2
  simp [progEvents, storeEvents, List.filter_append, h1, h2, List.filter]

/-- The program-size field of the control register holds the encoding
after the two writes of flash_set_program_size, for each of the four
encodings. -/
lemma crPsize2_field (c : Nat) (w : Width) :
    crPsize2 c w.enc &&& (FLASH_CR_PROGRAM_MASK <<< FLASH_CR_PROGRAM_SHIFT) =
      w.enc <<< FLASH_CR_PROGRAM_SHIFT := by
  have hc : crPsize1 c &&&
      (FLASH_CR_PROGRAM_MASK <<< FLASH_CR_PROGRAM_SHIFT) = 0 := by
    rw [crPsize1, land_land, land_land,
      show (mask32 ^^^ (FLASH_CR_PROGRAM_MASK <<< FLASH_CR_PROGRAM_SHIFT)) &&&
        (mask32 &&& (FLASH_CR_PROGRAM_MASK <<< FLASH_CR_PROGRAM_SHIFT)) = 0
        from by decide]
    exact Nat.and_zero c
  cases w <;>
    simp [crPsize2, Width.enc, land_land, lor_land, hc,
      show mask32 &&& (FLASH_CR_PROGRAM_MASK <<< FLASH_CR_PROGRAM_SHIFT) =
        FLASH_CR_PROGRAM_MASK <<< FLASH_CR_PROGRAM_SHIFT from by decide] <;>
    decide

/-- The program-enable bit is set in crPG. -/
lemma crPG_pg_set (c enc : Nat) :
    crPG c enc &&& FLASH_CR_PG = FLASH_CR_PG := by
  rw [crPG, land_land,
    show mask32 &&& FLASH_CR_PG = FLASH_CR_PG from by decide, lor_land]
  rcases Nat.mod_two_eq_zero_or_one (crPsize2 c enc) with h | h <;>
    · rw [show crPsize2 c enc &&& FLASH_CR_PG = crPsize2 c enc % 2 from
        Nat.and_one_is_mod _, h]
      decide

/-- The program-enable bit is clear in crPGoff. -/
lemma crPGoff_pg_clear (c enc : Nat) :
    crPGoff c enc &&& FLASH_CR_PG = 0 := by
  rw [crPGoff, land_land, land_land,
    show (mask32 ^^^ FLASH_CR_PG) &&& (mask32 &&& FLASH_CR_PG) = 0 from by
      decide]
  exact Nat.and_zero _

/-- C1: each program primitive (flash_program_byte, half_word, word,
double_word) emits the trace pattern: wait idle; clear then write the
parallelism encoding matching its width into the program-size field
(before the program-enable bit is set); set the program-enable bit; a
single memory-mapped store of the datum at the target address with the
matching width, strictly after the program-enable write and strictly
before the program-disable write; wait idle; clear the program-enable
bit. -/
theorem claim_C1_program_trace (w : Width) (s : St) (addr data : Nat)
    (srs : List Nat) (s1 : St) (rest : List Nat)
    (h : progPrim w s addr data srs = some (s1, rest)) :
    ∃ r1 r2, WaitReads r1 ∧ WaitReads r2 ∧
      s1.tr = s.tr ++ progEvents s.cr w.enc w.nbytes
        (addr &&& mask32) (data &&& w.dmask) r1 r2 ∧
      crPsize2 s.cr w.enc &&&
        (FLASH_CR_PROGRAM_MASK <<< FLASH_CR_PROGRAM_SHIFT) =
          w.enc <<< FLASH_CR_PROGRAM_SHIFT ∧
      crPG s.cr w.enc &&& FLASH_CR_PG = FLASH_CR_PG ∧
      crPGoff s.cr w.enc &&& FLASH_CR_PG = 0 ∧
      storeEvents (progEvents s.cr w.enc w.nbytes
          (addr &&& mask32) (data &&& w.dmask) r1 r2) =
        [Ev.store w.nbytes (addr &&& mask32) (data &&& w.dmask)] := by
  have hfield := crPsize2_field s.cr w
  have hpg := crPG_pg_set s.cr w.enc
  have hpgoff := crPGoff_pg_clear s.cr w.enc
  cases w with
  | x8 =>
    obtain ⟨r1, r2, hw1, hw2, htr, _, _, _⟩ := program_byte_spec h
    exact ⟨r1, r2, hw1, hw2, htr, hfield, hpg, hpgoff,
      storeEvents_progEvents _ _ _ _ _ _ _⟩
  | x16 =>
    obtain ⟨r1, r2, hw1, hw2, htr, _, _, _⟩ := program_half_word_spec h
    exact ⟨r1, r2, hw1, hw2, htr, hfield, hpg, hpgoff,
      storeEvents_progEvents _ _ _ _ _ _ _⟩
  | x32 =>
    obtain ⟨r1, r2, hw1, hw2, htr, _, _, _⟩ := program_word_spec h
    exact ⟨r1, r2, hw1, hw2, htr, hfield, hpg, hpgoff,
      storeEvents_progEvents _ _ _ _ _ _ _⟩
  | x64 =>
    obtain ⟨r1, r2, hw1, hw2, htr, _, _, _⟩ := program_double_word_spec h
    exact ⟨r1, r2, hw1, hw2, htr, hfield, hpg, hpgoff,
      storeEvents_progEvents _ _ _ _ _ _ _⟩

/-- Witness for C1: a concrete 32-bit program of 0xDEADBEEF at
0x08010000 from the zero state with a one-read busy poll each time. -/
theorem claim_C1_program_trace_witness :
    ∃ r1 r2, WaitReads r1 ∧ WaitReads r2 ∧
      progEvents 0 FLASH_CR_PROGRAM_X32 4 (134283264 &&& mask32)
          (3735928559 &&& mask32) [0] [0] =
        progEvents 0 FLASH_CR_PROGRAM_X32 4 (134283264 &&& mask32)
          (3735928559 &&& mask32) r1 r2 ∧
      crPsize2 0 FLASH_CR_PROGRAM_X32 &&&
        (FLASH_CR_PROGRAM_MASK <<< FLASH_CR_PROGRAM_SHIFT) =
          FLASH_CR_PROGRAM_X32 <<< FLASH_CR_PROGRAM_SHIFT ∧
      crPG 0 FLASH_CR_PROGRAM_X32 &&& FLASH_CR_PG = FLASH_CR_PG ∧
      crPGoff 0 FLASH_CR_PROGRAM_X32 &&& FLASH_CR_PG = 0 ∧
      storeEvents (progEvents 0 FLASH_CR_PROGRAM_X32 4
          (134283264 &&& mask32) (3735928559 &&& mask32) r1 r2) =
        [Ev.store 4 (134283264 &&& mask32) (3735928559 &&& mask32)] :=
  claim_C1_program_trace Width.x32 ⟨0, 0, 0, []⟩ 134283264 3735928559
    [0, 0]
    ⟨0, crPGoff 0 FLASH_CR_PROGRAM_X32, 0,
      progEvents 0 FLASH_CR_PROGRAM_X32 4 (134283264 &&& mask32)
        (3735928559 &&& mask32) [0] [0]⟩
    [] (by decide)

/-! Derived control-register values along the two erase operations. -/

/-- Control register after setting the mass-erase bit in
flash_erase_all_sectors. -/
def crMER (c p : Nat) : Nat :=
  (crPsize2 c p ||| FLASH_CR_MER) &&& mask32

/-- Control register after setting the strobe bit in
flash_erase_all_sectors. -/
def crMERstrt (c p : Nat) : Nat :=
  (crMER c p ||| FLASH_CR_STRT) &&& mask32

/-- Control register at the end of flash_erase_all_sectors. -/
def crMERoff (c p : Nat) : Nat :=
  (crMERstrt c p &&& (mask32 ^^^ FLASH_CR_MER)) &&& mask32

/-- Control register after clearing the sector-number field in
flash_erase_sector. -/
def crSnbClr (c p : Nat) : Nat :=
  (crPsize2 c p &&&
    (mask32 ^^^ (FLASH_CR_SNB_MASK <<< FLASH_CR_SNB_SHIFT))) &&& mask32

/-- Control register after writing the sector-number field in
flash_erase_sector (the sector truncated to uint8_t, then masked with
the field mask). -/
def crSnbSet (c p sec : Nat) : Nat :=
  (crSnbClr c p |||
    (((sec &&& 255) &&& FLASH_CR_SNB_MASK) <<< FLASH_CR_SNB_SHIFT)) &&& mask32

/-- Control register after setting the sector-erase bit. -/
def crSer (c p sec : Nat) : Nat :=
  (crSnbSet c p sec ||| FLASH_CR_SER) &&& mask32

/-- Control register after setting the strobe bit. -/
def crSerStrt (c p sec : Nat) : Nat :=
  (crSer c p sec ||| FLASH_CR_STRT) &&& mask32

/-- Control register after clearing the sector-erase bit at the end of
flash_erase_sector. -/
def crSerOff (c p sec : Nat) : Nat :=
  (crSerStrt c p sec &&& (mask32 ^^^ FLASH_CR_SER)) &&& mask32

/-- Control register at the end of flash_erase_sector, after the final
clear of the sector-number field. -/
def crSnbOff (c p sec : Nat) : Nat :=
  (crSerOff c p sec &&&
    (mask32 ^^^ (FLASH_CR_SNB_MASK <<< FLASH_CR_SNB_SHIFT))) &&& mask32

/-- The event block of flash_erase_all_sectors. -/
def eraseAllEvents (cr0 p : Nat) (r1 r2 : List Nat) : List Ev :=
  Ev.dsb :: (r1.map Ev.readSR ++
    (Ev.writeCR (crPsize1 cr0) :: Ev.writeCR (crPsize2 cr0 p) ::
      Ev.writeCR (crMER cr0 p) :: Ev.writeCR (crMERstrt cr0 p) :: Ev.dsb ::
        (r2.map Ev.readSR ++ [Ev.writeCR (crMERoff cr0 p)])))

/-- The event block of flash_erase_sector. -/
def eraseSectorEvents (cr0 sec p : Nat) (r1 r2 : List Nat) : List Ev :=
  Ev.dsb :: (r1.map Ev.readSR ++
    (Ev.writeCR (crPsize1 cr0) :: Ev.writeCR (crPsize2 cr0 p) ::
      Ev.writeCR (crSnbClr cr0 p) :: Ev.writeCR (crSnbSet cr0 p sec) ::
        Ev.writeCR (crSer cr0 p sec) :: Ev.writeCR (crSerStrt cr0 p sec) ::
          Ev.dsb :: (r2.map Ev.readSR ++
            [Ev.writeCR (crSerOff cr0 p sec),
             Ev.writeCR (crSnbOff cr0 p sec)])))

/-- Full characterisation of a returning flash_erase_all_sectors
run. -/
lemma erase_all_spec {s : St} {p : Nat} {srs : List Nat}
    {s1 : St} {rest : List Nat}
    (h : flash_erase_all_sectors s p srs = some (s1, rest)) :
    ∃ r1 r2, WaitReads r1 ∧ WaitReads r2 ∧
      s1.tr = s.tr ++ eraseAllEvents s.cr p r1 r2 ∧
      s1.cr = crMERoff s.cr p ∧
      s1.acr = s.acr ∧ s1.optcr = s.optcr := by
  simp only [flash_erase_all_sectors] at h
  cases h1 : flash_wait_for_last_operation s srs with
  | none => rw [h1] at h; simp at h
  | some p1 =>
    obtain ⟨sa, srs1⟩ := p1
    rw [h1] at h
    obtain ⟨pre1, v1, hsrs1, hacr1, hcr1, hopt1, htr1, hpre1, hv1⟩ :=
      wflo_spec h1
    simp only at h
    cases h2 : flash_wait_for_last_operation
        (orCR (orCR (flash_set_program_size sa p) FLASH_CR_MER)
          FLASH_CR_STRT) srs1 with
    | none => rw [h2] at h; simp at h
    | some p2 =>
      obtain ⟨sb, srs2⟩ := p2
      rw [h2] at h
      obtain ⟨pre2, v2, hsrs2, hacr2, hcr2, hopt2, htr2, hpre2, hv2⟩ :=
        wflo_spec h2
      simp only [Option.some.injEq, Prod.mk.injEq] at h
      obtain ⟨hs1, hrest⟩ := h
      refine ⟨pre1 ++ [v1], pre2 ++ [v2],
        ⟨pre1, v1, rfl, hpre1, hv1⟩, ⟨pre2, v2, rfl, hpre2, hv2⟩,
        ?_, ?_, ?_, ?_⟩ <;>
        simp [← hs1, andNotCR, writeCR, orCR, emit,
          flash_set_program_size, htr2, htr1, hcr2, hcr1, hacr2, hacr1,
          hopt2, hopt1, eraseAllEvents, crPsize1, crPsize2, crMER,
          crMERstrt, crMERoff]

/-- Full characterisation of a returning flash_erase_sector run. -/
lemma erase_sector_spec {s : St} {sector p : Nat} {srs : List Nat}
    {s1 : St} {rest : List Nat}
    (h : flash_erase_sector s sector p srs = some (s1, rest)) :
    ∃ r1 r2, WaitReads r1 ∧ WaitReads r2 ∧
      s1.tr = s.tr ++ eraseSectorEvents s.cr sector p r1 r2 ∧
      s1.cr = crSnbOff s.cr p sector ∧
      s1.acr = s.acr ∧ s1.optcr = s.optcr := by
  simp only [flash_erase_sector] at h
  cases h1 : flash_wait_for_last_operation s srs with
  | none => rw [h1] at h; simp at h
  | some p1 =>
    obtain ⟨sa, srs1⟩ := p1
    rw [h1] at h
    obtain ⟨pre1, v1, hsrs1, hacr1, hcr1, hopt1, htr1, hpre1, hv1⟩ :=
      wflo_spec h1
    simp only at h
    cases h2 : flash_wait_for_last_operation
        (orCR (orCR (orCR (andNotCR (flash_set_program_size sa p)
          (FLASH_CR_SNB_MASK <<< FLASH_CR_SNB_SHIFT))
            (((sector &&& 255) &&& FLASH_CR_SNB_MASK) <<< FLASH_CR_SNB_SHIFT))
              FLASH_CR_SER) FLASH_CR_STRT) srs1 with
    | none => rw [h2] at h; simp at h
    | some p2 =>
      obtain ⟨sb, srs2⟩ := p2
      rw [h2] at h
      obtain ⟨pre2, v2, hsrs2, hacr2, hcr2, hopt2, htr2, hpre2, hv2⟩ :=
        wflo_spec h2
      simp only [Option.some.injEq, Prod.mk.injEq] at h
      obtain ⟨hs1, hrest⟩ := h
      refine ⟨pre1 ++ [v1], pre2 ++ [v2],
        ⟨pre1, v1, rfl, hpre1, hv1⟩, ⟨pre2, v2, rfl, hpre2, hv2⟩,
        ?_, ?_, ?_, ?_⟩ <;>
        simp [← hs1, andNotCR, writeCR, orCR, emit,
          flash_set_program_size, htr2, htr1, hcr2, hcr1, hacr2, hacr1,
          hopt2, hopt1, eraseSectorEvents, crPsize1, crPsize2, crSnbClr,
          crSnbSet, crSer, crSerStrt, crSerOff, crSnbOff]

/-- The control-register bits a driver operation may set and must
clear again: program-enable, sector-erase, mass-erase, and the
sector-number field. -/
def CR_OP_BITS : Nat :=
  FLASH_CR_PG ||| FLASH_CR_SER ||| FLASH_CR_MER |||
    (FLASH_CR_SNB_MASK <<< FLASH_CR_SNB_SHIFT)

lemma lor_zero {x y : Nat} (hx : x = 0) (hy : y = 0) : x ||| y = 0 := by
  rw [hx, hy]
  decide

lemma land_subset_zero {c A M : Nat} (hc : c &&& A = 0)
    (hM : A &&& M = M) : c &&& M = 0 := by
  calc c &&& M = c &&& (A &&& M) := by rw [hM]
    _ = (c &&& A) &&& M := (land_land c A M).symm
    _ = 0 := by rw [hc]; exact Nat.zero_and M

/-- A program primitive leaves the operation bits of the control
register clear if they were clear at entry. -/
lemma crPGoff_clean (c enc : Nat) (hc : c &&& CR_OP_BITS = 0) :
    crPGoff c enc &&& CR_OP_BITS = 0 := by
  simp only [crPGoff, crPG, crPsize2, crPsize1, land_land, lor_land]
  refine lor_zero (lor_zero ?_ ?_) ?_
  · exact land_subset_zero hc (by decide)
  · apply shl_land_lt
    decide
  · decide

/-- flash_erase_all_sectors leaves the operation bits of the control
register clear if they were clear at entry. -/
lemma crMERoff_clean (c p : Nat) (hc : c &&& CR_OP_BITS = 0) :
    crMERoff c p &&& CR_OP_BITS = 0 := by
  simp only [crMERoff, crMERstrt, crMER, crPsize2, crPsize1,
    land_land, lor_land]
  refine lor_zero (lor_zero (lor_zero ?_ ?_) ?_) ?_
  · exact land_subset_zero hc (by decide)
  · apply shl_land_lt
    decide
  · decide
  · decide

/-- flash_erase_sector leaves the operation bits of the control
register clear if they were clear at entry. -/
lemma crSnbOff_clean (c p sec : Nat) (hc : c &&& CR_OP_BITS = 0) :
    crSnbOff c p sec &&& CR_OP_BITS = 0 := by
  simp only [crSnbOff, crSerOff, crSerStrt, crSer, crSnbSet, crSnbClr,
    crPsize2, crPsize1, land_land, lor_land]
  refine lor_zero (lor_zero (lor_zero (lor_zero ?_ ?_) ?_) ?_) ?_
  · exact land_subset_zero hc (by decide)
  · apply shl_land_lt
    decide
  · apply shl_land_lt
    decide
  · decide
  · decide

/-- C2 counterexample: from an initial control register with the
mass-erase bit set, flash_erase_sector returns with the mass-erase bit
still reading one, refuting the claim for arbitrary initial
control-register states. -/
theorem claim_C2_counterexample :
    (flash_erase_sector ⟨0, FLASH_CR_MER, 0, []⟩ 0 0 [0, 0]).map
        (fun q => q.1.cr &&& CR_OP_BITS) = some FLASH_CR_MER ∧
      FLASH_CR_MER ≠ 0 := by decide

/-- C2 (amended): after any erase or program operation returns, the
sector-number field and the sector-erase, mass-erase and
program-enable bits of the control register read zero, provided they
read zero when the operation started (equivalently: the operation
clears every one of those bits that it itself set, regardless of the
initial oracle-supplied status flags). -/
theorem claim_C2_cr_cleanliness :
    (∀ (s : St) (p : Nat) (srs : List Nat) (s1 : St) (rest : List Nat),
      s.cr &&& CR_OP_BITS = 0 →
        flash_erase_all_sectors s p srs = some (s1, rest) →
          s1.cr &&& CR_OP_BITS = 0) ∧
    (∀ (s : St) (sec p : Nat) (srs : List Nat) (s1 : St)
        (rest : List Nat), s.cr &&& CR_OP_BITS = 0 →
      flash_erase_sector s sec p srs = some (s1, rest) →
        s1.cr &&& CR_OP_BITS = 0) ∧
    (∀ (w : Width) (s : St) (addr d : Nat) (srs : List Nat) (s1 : St)
        (rest : List Nat), s.cr &&& CR_OP_BITS = 0 →
      progPrim w s addr d srs = some (s1, rest) →
        s1.cr &&& CR_OP_BITS = 0) := by
  refine ⟨?_, ?_, ?_⟩
  · intro s p srs s1 rest hc h
    obtain ⟨r1, r2, _, _, _, hcr, _, _⟩ := erase_all_spec h
    rw [hcr]
    exact crMERoff_clean s.cr p hc
  · intro s sec p srs s1 rest hc h
    obtain ⟨r1, r2, _, _, _, hcr, _, _⟩ := erase_sector_spec h
    rw [hcr]
    exact crSnbOff_clean s.cr p sec hc
  · intro w s addr d srs s1 rest hc h
    cases w with
    | x8 =>
      obtain ⟨r1, r2, _, _, _, hcr, _, _⟩ := program_byte_spec h
      rw [hcr]
      exact crPGoff_clean s.cr _ hc
    | x16 =>
      obtain ⟨r1, r2, _, _, _, hcr, _, _⟩ := program_half_word_spec h
      rw [hcr]
      exact crPGoff_clean s.cr _ hc
    | x32 =>
      obtain ⟨r1, r2, _, _, _, hcr, _, _⟩ := program_word_spec h
      rw [hcr]
      exact crPGoff_clean s.cr _ hc
    | x64 =>
      obtain ⟨r1, r2, _, _, _, hcr, _, _⟩ := program_double_word_spec h
      rw [hcr]
      exact crPGoff_clean s.cr _ hc

/-- Witness for C2: concrete runs of the three operation families from
a clean zero control register. -/
theorem claim_C2_cr_cleanliness_witness :
    crMERoff 0 0 &&& CR_OP_BITS = 0 ∧
      crSnbOff 0 0 3 &&& CR_OP_BITS = 0 ∧
      crPGoff 0 FLASH_CR_PROGRAM_X8 &&& CR_OP_BITS = 0 :=
  ⟨claim_C2_cr_cleanliness.1 ⟨0, 0, 0, []⟩ 0 [0, 0]
      ⟨0, crMERoff 0 0, 0, eraseAllEvents 0 0 [0] [0]⟩ [] (by decide)
      (by decide),
    claim_C2_cr_cleanliness.2.1 ⟨0, 0, 0, []⟩ 3 0 [0, 0]
      ⟨0, crSnbOff 0 0 3, 0, eraseSectorEvents 0 3 0 [0] [0]⟩ []
      (by decide) (by decide),
    claim_C2_cr_cleanliness.2.2 Width.x8 ⟨0, 0, 0, []⟩ 134283264 7 [0, 0]
      ⟨0, crPGoff 0 FLASH_CR_PROGRAM_X8, 0,
        progEvents 0 FLASH_CR_PROGRAM_X8 1 (134283264 &&& mask32)
          (7 &&& 255) [0] [0]⟩ [] (by decide) (by decide)⟩

/-- C3: flash_unlock emits exactly one control-register write (setting
the lock bit) followed by the two key-register writes 0x45670123 then
0xCDEF89AB, in that order; the key-register writes of the emitted
block are exactly those two, adjacent, with nothing between them. -/
theorem claim_C3_unlock_key_sequence (s : St) :
    (flash_unlock s).tr =
      s.tr ++ [Ev.writeCR ((s.cr ||| FLASH_CR_LOCK) &&& mask32),
        Ev.writeKEYR FLASH_KEYR_KEY1, Ev.writeKEYR FLASH_KEYR_KEY2] ∧
    keyrWrites ((flash_unlock s).tr.drop s.tr.length) =
      [Ev.writeKEYR FLASH_KEYR_KEY1, Ev.writeKEYR FLASH_KEYR_KEY2] := by
  constructor
  · simp [flash_unlock, orCR, writeCR, emit]
  · simp [flash_unlock, orCR, writeCR, emit, keyrWrites, List.filter]

/-- C9: a returning flash_wait_for_last_operation emits the
data-synchronisation barrier before its first status-register read,
every read before the last one saw the busy flag set (the loop did not
return while busy), and the last observed read has the busy flag
clear. -/
theorem claim_C9_wait_barrier_busy (s : St) (srs : List Nat) (s1 : St)
    (rest : List Nat)
    (h : flash_wait_for_last_operation s srs = some (s1, rest)) :
    ∃ pre v, s1.tr = s.tr ++ Ev.dsb :: (pre ++ [v]).map Ev.readSR ∧
      (∀ u ∈ pre, u &&& FLASH_SR_BSY = FLASH_SR_BSY) ∧
      v &&& FLASH_SR_BSY ≠ FLASH_SR_BSY := by
  obtain ⟨pre, v, _, _, _, _, htr, hpre, hv⟩ := wflo_spec h
  exact ⟨pre, v, htr, hpre, hv⟩

/-- Witness for C9: a concrete wait that observes one busy read and
then a non-busy read. -/
theorem claim_C9_wait_barrier_busy_witness :
    ∃ pre v,
      ([Ev.dsb, Ev.readSR 65536, Ev.readSR 0] : List Ev) =
        [] ++ Ev.dsb :: (pre ++ [v]).map Ev.readSR ∧
      (∀ u ∈ pre, u &&& FLASH_SR_BSY = FLASH_SR_BSY) ∧
      v &&& FLASH_SR_BSY ≠ FLASH_SR_BSY :=
  claim_C9_wait_barrier_busy ⟨0, 0, 0, []⟩ [65536, 0]
    ⟨0, 0, 0, [Ev.dsb, Ev.readSR 65536, Ev.readSR 0]⟩ [] (by decide)

/-- C4 counterexample: with the end-of-operation and
programming-parallelism-error flags both pending,
flash_clear_eop_flag also clears the pending
programming-parallelism-error flag, so the other four flags are not
always unchanged. -/
theorem claim_C4_counterexample :
    (FLASH_SR_EOP ||| FLASH_SR_PGPERR) &&& FLASH_SR_PGPERR =
        FLASH_SR_PGPERR ∧
      flash_clear_eop_flag (FLASH_SR_EOP ||| FLASH_SR_PGPERR) &&&
        FLASH_SR_PGPERR = 0 := by decide

/-- C4 (amended): each individual flag-clear operation writes one to
its own flag and to every other write-one-to-clear flag that was
pending, so the status register afterwards has all five
write-one-to-clear flags clear (other bits untouched); the other four
flags are unchanged exactly when none of them was pending at the
call. -/
theorem claim_C4_flag_clear (sr : Nat) :
    flash_clear_eop_flag sr = sr &&& (mask32 ^^^ FLASH_SR_W1C_MASK) ∧
    flash_clear_pgperr_flag sr = sr &&& (mask32 ^^^ FLASH_SR_W1C_MASK) ∧
    flash_clear_pgaerr_flag sr = sr &&& (mask32 ^^^ FLASH_SR_W1C_MASK) ∧
    flash_clear_wrperr_flag sr = sr &&& (mask32 ^^^ FLASH_SR_W1C_MASK) ∧
    flash_clear_erserr_flag sr = sr &&& (mask32 ^^^ FLASH_SR_W1C_MASK) :=
  ⟨w1c_clear FLASH_SR_EOP sr (by decide),
    w1c_clear FLASH_SR_PGPERR sr (by decide),
    w1c_clear FLASH_SR_PGAERR sr (by decide),
    w1c_clear FLASH_SR_WRPERR sr (by decide),
    w1c_clear FLASH_SR_ERSERR sr (by decide)⟩

lemma shl_land_shl (a b n : Nat) :
    (a <<< n) &&& (b <<< n) = (a &&& b) <<< n := by
  apply Nat.eq_of_testBit_eq
  intro i
  simp only [Nat.testBit_land, Nat.testBit_shiftLeft]
  by_cases h : n ≤ i <;> simp [h, Nat.testBit_land]

/-- The sector-number field is clear after the field-clearing write of
flash_erase_sector. -/
lemma crSnbClr_field (c p : Nat) :
    crSnbClr c p &&& (FLASH_CR_SNB_MASK <<< FLASH_CR_SNB_SHIFT) = 0 := by
  rw [crSnbClr, land_land, land_land,
    show (mask32 ^^^ (FLASH_CR_SNB_MASK <<< FLASH_CR_SNB_SHIFT)) &&&
      (mask32 &&& (FLASH_CR_SNB_MASK <<< FLASH_CR_SNB_SHIFT)) = 0 from by
        decide]
  exact Nat.and_zero _

/-- The sector-number field after the arming write of
flash_erase_sector holds the truncated and masked sector argument. -/
lemma crSnbSet_field (c p sec : Nat) :
    crSnbSet c p sec &&& (FLASH_CR_SNB_MASK <<< FLASH_CR_SNB_SHIFT) =
      ((sec &&& 255) &&& FLASH_CR_SNB_MASK) <<< FLASH_CR_SNB_SHIFT := by
  rw [crSnbSet, land_land,
    show mask32 &&& (FLASH_CR_SNB_MASK <<< FLASH_CR_SNB_SHIFT) =
      FLASH_CR_SNB_MASK <<< FLASH_CR_SNB_SHIFT from by decide,
    lor_land, crSnbClr_field, shl_land_shl, land_land,
    show FLASH_CR_SNB_MASK &&& FLASH_CR_SNB_MASK = FLASH_CR_SNB_MASK from by
      decide]
  exact Nat.zero_or _

/-- C5 counterexample: erasing sector 32 (outside the 5-bit
sector-number field) writes 0, not 32, into the field: the core
masks the sector number before writing it. -/
theorem claim_C5_counterexample :
    (flash_erase_sector ⟨0, 0, 0, []⟩ 32 0 [0, 0]).map (fun q => q.1.tr) =
        some (eraseSectorEvents 0 32 0 [0] [0]) ∧
      crSnbSet 0 0 32 &&& (FLASH_CR_SNB_MASK <<< FLASH_CR_SNB_SHIFT) = 0 ∧
      (32 : Nat) &&& FLASH_CR_SNB_MASK ≠ 32 := by decide

/-- C5 (amended): flash_erase_sector clears the sector-number field
and then writes into it the sector argument truncated to uint8_t and
masked with the field mask; sector numbers that fit the field are
written unmodified, larger ones are truncated by the mask (not
clamped). -/
theorem claim_C5_sector_field (s : St) (sector p : Nat)
    (srs : List Nat) (s1 : St) (rest : List Nat)
    (h : flash_erase_sector s sector p srs = some (s1, rest)) :
    ∃ r1 r2, WaitReads r1 ∧ WaitReads r2 ∧
      s1.tr = s.tr ++ eraseSectorEvents s.cr sector p r1 r2 ∧
      crSnbClr s.cr p &&& (FLASH_CR_SNB_MASK <<< FLASH_CR_SNB_SHIFT) = 0 ∧
      crSnbSet s.cr p sector &&&
          (FLASH_CR_SNB_MASK <<< FLASH_CR_SNB_SHIFT) =
        ((sector &&& 255) &&& FLASH_CR_SNB_MASK) <<< FLASH_CR_SNB_SHIFT ∧
      (sector &&& FLASH_CR_SNB_MASK = sector →
        crSnbSet s.cr p sector &&&
            (FLASH_CR_SNB_MASK <<< FLASH_CR_SNB_SHIFT) =
          sector <<< FLASH_CR_SNB_SHIFT) := by
  obtain ⟨r1, r2, hw1, hw2, htr, _, _, _⟩ := erase_sector_spec h
  refine ⟨r1, r2, hw1, hw2, htr, crSnbClr_field s.cr p,
    crSnbSet_field s.cr p sector, ?_⟩
  intro hin
  rw [crSnbSet_field s.cr p sector]
  have h255 : sector &&& 255 = sector := by
    conv_lhs => rw [← hin]
    rw [land_land,
      show FLASH_CR_SNB_MASK &&& 255 = FLASH_CR_SNB_MASK from by decide,
      hin]
  rw [h255, hin]

/-- Witness for C5: a concrete in-range erase of sector 5. -/
theorem claim_C5_sector_field_witness :
    ∃ r1 r2, WaitReads r1 ∧ WaitReads r2 ∧
      eraseSectorEvents 0 5 0 [0] [0] =
        [] ++ eraseSectorEvents 0 5 0 r1 r2 ∧
      crSnbClr 0 0 &&& (FLASH_CR_SNB_MASK <<< FLASH_CR_SNB_SHIFT) = 0 ∧
      crSnbSet 0 0 5 &&& (FLASH_CR_SNB_MASK <<< FLASH_CR_SNB_SHIFT) =
        ((5 &&& 255) &&& FLASH_CR_SNB_MASK) <<< FLASH_CR_SNB_SHIFT ∧
      ((5 : Nat) &&& FLASH_CR_SNB_MASK = 5 →
        crSnbSet 0 0 5 &&& (FLASH_CR_SNB_MASK <<< FLASH_CR_SNB_SHIFT) =
          5 <<< FLASH_CR_SNB_SHIFT) :=
  claim_C5_sector_field ⟨0, 0, 0, []⟩ 5 0 [0, 0]
    ⟨0, crSnbOff 0 0 5, 0, eraseSectorEvents 0 5 0 [0] [0]⟩ []
    (by decide)

/-- Characterisation of a terminating wait-state poll: the oracle
splits into a run of reads whose latency field differs from ws, one
read whose latency field equals ws, and the unconsumed remainder. -/
lemma pollACR_spec (ws : Nat) (acrs : List Nat) :
    ∀ {evs : List Ev} {rest : List Nat},
      pollACR ws acrs = some (evs, rest) →
        ∃ pre v, acrs = pre ++ v :: rest ∧
          evs = (pre ++ [v]).map Ev.readACR ∧
          (∀ u ∈ pre, u &&& FLASH_ACR_LATENCY_MASK ≠ ws) ∧
          v &&& FLASH_ACR_LATENCY_MASK = ws := by
  induction acrs with
  | nil => intro evs rest h; simp [pollACR] at h
  | cons v tail ih =>
    intro evs rest h
    rw [pollACR] at h
    by_cases hb : v &&& FLASH_ACR_LATENCY_MASK ≠ ws
    · rw [if_pos hb] at h
      cases hp : pollACR ws tail with
      | none => rw [hp] at h; simp at h
      | some p =>
        rw [hp] at h
        obtain ⟨evs0, r⟩ := p
        simp only [Option.some.injEq, Prod.mk.injEq] at h
        obtain ⟨hevs, hrest⟩ := h
        obtain ⟨pre0, v0, hsrs, hevs0, hpre0, hv0⟩ := ih hp
        refine ⟨v :: pre0, v0, ?_, ?_, ?_, hv0⟩
        · simp [hsrs, hrest.symm]
        · simp [← hevs, hevs0]
        · intro u hu
          rcases List.mem_cons.mp hu with h1 | h2
          · exact h1 ▸ hb
          · exact hpre0 u h2
    · rw [if_neg hb] at h
      simp only [Option.some.injEq, Prod.mk.injEq] at h
      push_neg at hb
      exact ⟨[], v, by simp [h.2.symm], by simp [← h.1], by simp, hb⟩

/-- If no register value can satisfy the poll condition, the
wait-state poll never returns on any oracle. -/
lemma pollACR_none (ws : Nat)
    (hws : ∀ v : Nat, v &&& FLASH_ACR_LATENCY_MASK ≠ ws) :
    ∀ acrs : List Nat, pollACR ws acrs = none := by
  intro acrs
  induction acrs with
  | nil => rfl
  | cons v tail ih => rw [pollACR, if_pos (hws v), ih]

/-- If some oracle value satisfies the poll condition, the wait-state
poll returns. -/
lemma pollACR_isSome (ws : Nat) (acrs : List Nat) (v : Nat)
    (hv : v ∈ acrs) (hmatch : v &&& FLASH_ACR_LATENCY_MASK = ws) :
    (pollACR ws acrs).isSome := by
  induction acrs with
  | nil => cases hv
  | cons u tail ih =>
    rw [pollACR]
    by_cases hu : u &&& FLASH_ACR_LATENCY_MASK ≠ ws
    · rw [if_pos hu]
      have hvt : v ∈ tail := by
        rcases List.mem_cons.mp hv with h1 | h2
        · exact absurd (h1 ▸ hmatch) hu
        · exact h2
      cases hp : pollACR ws tail with
      | none => rw [hp] at ih; simp [ih hvt] at *
      | some p => simp
    · rw [if_neg hu]
      simp

/-- C6 counterexample: flash_set_ws with the out-of-field value 16
ORs bit 4 into the access-control register, changing a
non-latency bit, so the claim fails for arbitrary n. -/
theorem claim_C6_counterexample :
    (16 : Nat) &&& FLASH_ACR_LATENCY_MASK = 0 ∧
      (flash_set_ws_write ⟨0, 0, 0, []⟩ 16).acr &&&
          (mask32 ^^^ FLASH_ACR_LATENCY_MASK) ≠
        (0 : Nat) &&& (mask32 ^^^ FLASH_ACR_LATENCY_MASK) := by decide

/-- C6 (amended): for a wait-state value within the latency field,
flash_set_ws performs a read-modify-write of the access-control
register that masks out the latency field and ORs in ws, leaving every
other bit unchanged, and the subsequent poll returns only after a read
of the access-control register whose latency field equals ws (all
earlier polled reads differ). -/
theorem claim_C6_set_ws (s : St) (ws : Nat) (acrs : List Nat)
    (hws : ws &&& FLASH_ACR_LATENCY_MASK = ws) :
    (flash_set_ws_write s ws).acr &&&
        (mask32 ^^^ FLASH_ACR_LATENCY_MASK) =
      s.acr &&& (mask32 ^^^ FLASH_ACR_LATENCY_MASK) ∧
    (flash_set_ws_write s ws).acr &&& FLASH_ACR_LATENCY_MASK = ws ∧
    (flash_set_ws_write s ws).tr =
      s.tr ++ [Ev.readACR s.acr,
        Ev.writeACR ((flash_set_ws_write s ws).acr)] ∧
    (∀ (s1 : St) (rest : List Nat),
      flash_set_ws s ws acrs = some (s1, rest) →
        ∃ pre v, acrs = pre ++ v :: rest ∧
          (∀ u ∈ pre, u &&& FLASH_ACR_LATENCY_MASK ≠ ws) ∧
          v &&& FLASH_ACR_LATENCY_MASK = ws ∧
          s1.tr = (flash_set_ws_write s ws).tr ++
            (pre ++ [v]).map Ev.readACR) := by
  have hwsm : ws &&& mask32 = ws := by
    conv_lhs => rw [← hws]
    rw [land_land,
      show FLASH_ACR_LATENCY_MASK &&& mask32 = FLASH_ACR_LATENCY_MASK from
        by decide, hws]
  have hacr : (flash_set_ws_write s ws).acr =
      ((s.acr &&& (mask32 ^^^ FLASH_ACR_LATENCY_MASK)) ||| ws) &&&
        mask32 := by
    simp [flash_set_ws_write, emit, hwsm]
  refine ⟨?_, ?_, ?_, ?_⟩
  · rw [hacr, land_land, lor_land, land_land,
      show (mask32 ^^^ FLASH_ACR_LATENCY_MASK) &&&
        (mask32 &&& (mask32 ^^^ FLASH_ACR_LATENCY_MASK)) =
          mask32 ^^^ FLASH_ACR_LATENCY_MASK from by decide]
    have : ws &&& (mask32 &&& (mask32 ^^^ FLASH_ACR_LATENCY_MASK)) = 0 := by
      conv_lhs => rw [← hws]
      rw [land_land,
        show FLASH_ACR_LATENCY_MASK &&&
          (mask32 &&& (mask32 ^^^ FLASH_ACR_LATENCY_MASK)) = 0 from by
            decide]
      exact Nat.and_zero _
    rw [this]
    exact Nat.or_zero _
  · rw [hacr, land_land, lor_land, land_land,
      show (mask32 ^^^ FLASH_ACR_LATENCY_MASK) &&&
        (mask32 &&& FLASH_ACR_LATENCY_MASK) = 0 from by decide,
      Nat.and_zero,
      show mask32 &&& FLASH_ACR_LATENCY_MASK = FLASH_ACR_LATENCY_MASK from
        by decide, hws]
    exact Nat.zero_or ws
  · simp [flash_set_ws_write, emit, hwsm]
  · intro s1 rest h
    rw [flash_set_ws] at h
    cases hp : pollACR (ws &&& mask32) acrs with
    | none => rw [hp] at h; simp at h
    | some p =>
      rw [hp] at h
      obtain ⟨evs, r⟩ := p
      simp only [Option.some.injEq, Prod.mk.injEq] at h
      rw [hwsm] at hp
      obtain ⟨pre, v, hsplit, hevs, hpre, hv⟩ := pollACR_spec ws acrs hp
      refine ⟨pre, v, by rw [← h.2]; exact hsplit, hpre, hv, ?_⟩
      rw [← h.1]
      simp [hevs]

/-- Witness for C6: setting 7 wait states from an access-control
register with a non-latency bit set, polled with a single matching
read. -/
theorem claim_C6_set_ws_witness :
    (flash_set_ws_write ⟨259, 0, 0, []⟩ 7).acr &&&
        (mask32 ^^^ FLASH_ACR_LATENCY_MASK) =
      (259 : Nat) &&& (mask32 ^^^ FLASH_ACR_LATENCY_MASK) ∧
    (flash_set_ws_write ⟨259, 0, 0, []⟩ 7).acr &&&
      FLASH_ACR_LATENCY_MASK = 7 ∧
    (flash_set_ws_write ⟨259, 0, 0, []⟩ 7).tr =
      [] ++ [Ev.readACR 259,
        Ev.writeACR ((flash_set_ws_write ⟨259, 0, 0, []⟩ 7).acr)] ∧
    (∀ (s1 : St) (rest : List Nat),
      flash_set_ws ⟨259, 0, 0, []⟩ 7 [7] = some (s1, rest) →
        ∃ pre v, [7] = pre ++ v :: rest ∧
          (∀ u ∈ pre, u &&& FLASH_ACR_LATENCY_MASK ≠ 7) ∧
          v &&& FLASH_ACR_LATENCY_MASK = 7 ∧
          s1.tr = (flash_set_ws_write ⟨259, 0, 0, []⟩ 7).tr ++
            (pre ++ [v]).map Ev.readACR) :=
  claim_C6_set_ws ⟨259, 0, 0, []⟩ 7 [7] (by decide)

/-- C10: if ws has a bit outside the latency field, no possible
access-control-register value satisfies the poll exit condition and
flash_set_ws never returns, on any oracle; conversely, if ws lies in
the latency field and some polled read returns the latched field
value, flash_set_ws returns. -/
theorem claim_C10_set_ws_termination :
    (∀ ws v : Nat,
      (ws &&& mask32) &&& (mask32 ^^^ FLASH_ACR_LATENCY_MASK) ≠ 0 →
        v &&& FLASH_ACR_LATENCY_MASK ≠ ws &&& mask32) ∧
    (∀ (s : St) (ws : Nat) (acrs : List Nat) (q : St × List Nat),
      (ws &&& mask32) &&& (mask32 ^^^ FLASH_ACR_LATENCY_MASK) ≠ 0 →
        flash_set_ws s ws acrs ≠ some q) ∧
    (∀ (s : St) (ws : Nat) (acrs : List Nat),
      ws &&& FLASH_ACR_LATENCY_MASK = ws →
        (∃ v ∈ acrs, v &&& FLASH_ACR_LATENCY_MASK = ws) →
          (flash_set_ws s ws acrs).isSome) := by
  have key : ∀ ws v : Nat,
      (ws &&& mask32) &&& (mask32 ^^^ FLASH_ACR_LATENCY_MASK) ≠ 0 →
        v &&& FLASH_ACR_LATENCY_MASK ≠ ws &&& mask32 := by
    intro ws v hout heq
    apply hout
    rw [← heq, land_land,
      show FLASH_ACR_LATENCY_MASK &&&
        (mask32 ^^^ FLASH_ACR_LATENCY_MASK) = 0 from by decide]
    exact Nat.and_zero v
  refine ⟨key, ?_, ?_⟩
  · intro s ws acrs q hout
    rw [flash_set_ws, pollACR_none (ws &&& mask32) (fun v => key ws v hout)
      acrs]
    simp
  · intro s ws acrs hws ⟨v, hv, hmatch⟩
    have hwsm : ws &&& mask32 = ws := by
      conv_lhs => rw [← hws]
      rw [land_land,
        show FLASH_ACR_LATENCY_MASK &&& mask32 = FLASH_ACR_LATENCY_MASK from
          by decide, hws]
    rw [flash_set_ws, hwsm]
    cases hp : pollACR ws acrs with
    | none =>
      have := pollACR_isSome ws acrs v hv hmatch
      rw [hp] at this
      simp at this
    | some p => simp

/-- Witness for C10: the out-of-field value 16 never returns on a
concrete oracle (even one containing 16 itself), and the in-field
value 7 returns on an oracle whose second read has latency field 7. -/
theorem claim_C10_set_ws_termination_witness :
    ((5 : Nat) &&& FLASH_ACR_LATENCY_MASK ≠ 16 &&& mask32) ∧
    flash_set_ws ⟨0, 0, 0, []⟩ 16 [16, 0] ≠
      some (⟨0, 0, 0, []⟩, []) ∧
    (flash_set_ws ⟨0, 0, 0, []⟩ 7 [3, 7]).isSome :=
  ⟨claim_C10_set_ws_termination.1 16 5 (by decide),
    claim_C10_set_ws_termination.2.1 ⟨0, 0, 0, []⟩ 16 [16, 0]
      (⟨0, 0, 0, []⟩, []) (by decide),
    claim_C10_set_ws_termination.2.2 ⟨0, 0, 0, []⟩ 7 [3, 7] (by decide)
      ⟨7, by decide, by decide⟩⟩

/-- The event blocks of a byte-by-byte bulk program: one full 8-bit
program cycle (wait, program-size writes, arm, store, wait, disarm)
per data byte, at consecutive (32-bit wrapped) addresses, in data
order, the control register threaded from cycle to cycle. -/
inductive ByteCycles : Nat → Nat → List Nat → List Ev → Prop
  | nil (cr addr : Nat) : ByteCycles cr addr [] []
  | cons (cr addr d : Nat) (ds : List Nat) (r1 r2 : List Nat)
      (evs : List Ev) :
      WaitReads r1 → WaitReads r2 →
      ByteCycles (crPGoff cr FLASH_CR_PROGRAM_X8)
        ((addr + 1) &&& mask32) ds evs →
      ByteCycles cr addr (d :: ds)
        (progEvents cr FLASH_CR_PROGRAM_X8 1 (addr &&& mask32)
          (d &&& 255) r1 r2 ++ evs)

lemma addr_wrap (a i : Nat) :
    ((a &&& mask32) + i) &&& mask32 = (a + i) &&& mask32 := by
  have h32 : mask32 = 2 ^ 32 - 1 := by decide
  simp only [h32, Nat.and_pow_two_sub_one_eq_mod]
  have hp : (2 : Nat) ^ 32 = 4294967296 := by norm_num
  rw [hp]
  omega

/-- The store events of a byte-by-byte bulk program: the i-th store is
an 8-bit store of the i-th byte at address + i. -/
lemma byteCycles_stores {cr addr : Nat} {ds : List Nat} {evs : List Ev}
    (h : ByteCycles cr addr ds evs) :
    storeEvents evs = (List.range ds.length).map
      (fun i => Ev.store 1 ((addr + i) &&& mask32)
        ((ds.getD i 0) &&& 255)) := by
  induction h with
  | nil => rfl
  | cons cr addr d ds r1 r2 evs hw1 hw2 hb ih =>
    have hfil : storeEvents (progEvents cr FLASH_CR_PROGRAM_X8 1
        (addr &&& mask32) (d &&& 255) r1 r2 ++ evs) =
          storeEvents (progEvents cr FLASH_CR_PROGRAM_X8 1
            (addr &&& mask32) (d &&& 255) r1 r2) ++ storeEvents evs := by
      simp [storeEvents, List.filter_append]
    rw [hfil, storeEvents_progEvents, ih, List.length_cons,
      List.range_succ_eq_map, List.map_cons, List.map_map]
    refine List.cons_eq_cons.mpr ⟨by simp, ?_⟩
    apply List.map_congr_left
    intro i hi
    simp only [Function.comp_apply, List.getD_cons_succ]
    rw [addr_wrap (addr + 1) i]
    congr 2
    omega

/-- A returning bulk program appends one full byte cycle per data
byte. -/
lemma flash_program_cycles (data : List Nat) :
    ∀ (s : St) (addr : Nat) (srs : List Nat) (s1 : St)
      (rest : List Nat), flash_program s addr data srs = some (s1, rest) →
        ∃ evs, s1.tr = s.tr ++ evs ∧ ByteCycles s.cr addr data evs := by
  induction data with
  | nil =>
    intro s addr srs s1 rest h
    rw [flash_program] at h
    simp only [Option.some.injEq, Prod.mk.injEq] at h
    exact ⟨[], by simp [← h.1], h.1 ▸ ByteCycles.nil s.cr addr⟩
  | cons d ds ih =>
    intro s addr srs s1 rest h
    rw [flash_program] at h
    cases hb : flash_program_byte s addr d srs with
    | none => rw [hb] at h; simp at h
    | some p =>
      obtain ⟨sb, srs1⟩ := p
      rw [hb] at h
      simp only at h
      obtain ⟨r1, r2, hw1, hw2, htr, hcr, _, _⟩ := program_byte_spec hb
      obtain ⟨evs2, htr2, hbc2⟩ := ih sb ((addr + 1) &&& mask32) srs1 s1
        rest h
      refine ⟨progEvents s.cr FLASH_CR_PROGRAM_X8 1 (addr &&& mask32)
        (d &&& 255) r1 r2 ++ evs2, ?_, ?_⟩
      · rw [htr2, htr, List.append_assoc]
      · exact ByteCycles.cons s.cr addr d ds r1 r2 evs2 hw1 hw2
          (hcr ▸ hbc2)

/-- C7: flash_program performs exactly one full 8-bit program cycle
per data byte via flash_program_byte, the i-th cycle a complete
wait/arm/store/wait/disarm block storing byte i at address + i, the
cycles in increasing i order; for an empty block it performs no
register or memory access at all (state and oracle unchanged). -/
theorem claim_C7_bulk_program (s : St) (addr : Nat) (data : List Nat)
    (srs : List Nat) (s1 : St) (rest : List Nat)
    (h : flash_program s addr data srs = some (s1, rest)) :
    (∃ evs, s1.tr = s.tr ++ evs ∧ ByteCycles s.cr addr data evs ∧
      storeEvents evs = (List.range data.length).map
        (fun i => Ev.store 1 ((addr + i) &&& mask32)
          ((data.getD i 0) &&& 255))) ∧
    (data = [] → s1 = s ∧ rest = srs) := by
  constructor
  · obtain ⟨evs, htr, hbc⟩ := flash_program_cycles data s addr srs s1
      rest h
    exact ⟨evs, htr, hbc, byteCycles_stores hbc⟩
  · rintro rfl
    rw [flash_program] at h
    simp only [Option.some.injEq, Prod.mk.injEq] at h
    exact ⟨h.1.symm, h.2.symm⟩

/-- Witness for C7: the bulk program of bytes 1, 2, 3 at 0x08020000
from the zero state, each busy poll answered immediately. -/
theorem claim_C7_bulk_program_witness :
    (∃ evs,
      (progEvents 0 FLASH_CR_PROGRAM_X8 1 (134348800 &&& mask32)
          (1 &&& 255) [0] [0] ++
        (progEvents (crPGoff 0 FLASH_CR_PROGRAM_X8) FLASH_CR_PROGRAM_X8 1
          (134348801 &&& mask32) (2 &&& 255) [0] [0] ++
          (progEvents (crPGoff (crPGoff 0 FLASH_CR_PROGRAM_X8)
              FLASH_CR_PROGRAM_X8) FLASH_CR_PROGRAM_X8 1
            (134348802 &&& mask32) (3 &&& 255) [0] [0] ++ []))) =
        [] ++ evs ∧ ByteCycles 0 134348800 [1, 2, 3] evs ∧
      storeEvents evs = (List.range 3).map
        (fun i => Ev.store 1 ((134348800 + i) &&& mask32)
          (([1, 2, 3].getD i 0) &&& 255))) ∧
    (([1, 2, 3] : List Nat) = [] →
      (⟨0, crPGoff (crPGoff (crPGoff 0 FLASH_CR_PROGRAM_X8)
          FLASH_CR_PROGRAM_X8) FLASH_CR_PROGRAM_X8, 0,
        progEvents 0 FLASH_CR_PROGRAM_X8 1 (134348800 &&& mask32)
            (1 &&& 255) [0] [0] ++
          (progEvents (crPGoff 0 FLASH_CR_PROGRAM_X8)
              FLASH_CR_PROGRAM_X8 1 (134348801 &&& mask32) (2 &&& 255)
              [0] [0] ++
            (progEvents (crPGoff (crPGoff 0 FLASH_CR_PROGRAM_X8)
                FLASH_CR_PROGRAM_X8) FLASH_CR_PROGRAM_X8 1
              (134348802 &&& mask32) (3 &&& 255) [0] [0] ++ []))⟩ : St) =
        ⟨0, 0, 0, []⟩ ∧ ([] : List Nat) = [0, 0, 0, 0, 0, 0]) :=
  claim_C7_bulk_program ⟨0, 0, 0, []⟩ 134348800 [1, 2, 3]
    [0, 0, 0, 0, 0, 0]
    ⟨0, crPGoff (crPGoff (crPGoff 0 FLASH_CR_PROGRAM_X8)
        FLASH_CR_PROGRAM_X8) FLASH_CR_PROGRAM_X8, 0,
      progEvents 0 FLASH_CR_PROGRAM_X8 1 (134348800 &&& mask32)
          (1 &&& 255) [0] [0] ++
        (progEvents (crPGoff 0 FLASH_CR_PROGRAM_X8) FLASH_CR_PROGRAM_X8 1
            (134348801 &&& mask32) (2 &&& 255) [0] [0] ++
          (progEvents (crPGoff (crPGoff 0 FLASH_CR_PROGRAM_X8)
              FLASH_CR_PROGRAM_X8) FLASH_CR_PROGRAM_X8 1
            (134348802 &&& mask32) (3 &&& 255) [0] [0] ++ []))⟩
    [] (by decide)

/-- The value written to the option-control register: the datum
(uint32_t) with its low two bits masked to zero. -/
def optMasked (x : Nat) : Nat :=
  ((x &&& mask32) &&& (mask32 ^^^ 3)) &&& mask32

/-- The option-control value after the read-modify-write that sets the
option-start bit. -/
def optStarted (x : Nat) : Nat :=
  (optMasked x ||| FLASH_OPTCR_OPTSTRT) &&& mask32

/-- The event block of flash_program_option_bytes: wait idle; the
option-byte unlock block exactly when the option-lock bit was set;
the masked data write; the option-start write; wait idle. -/
def optProgEvents (optcr0 x : Nat) (r1 r2 : List Nat) : List Ev :=
  Ev.dsb :: (r1.map Ev.readSR ++
    ((if optcr0 &&& FLASH_OPTCR_OPTLOCK ≠ 0 then
        [Ev.writeOPTCR ((optcr0 ||| FLASH_OPTCR_OPTLOCK) &&& mask32),
         Ev.writeOPTKEYR FLASH_OPTKEYR_KEY1,
         Ev.writeOPTKEYR FLASH_OPTKEYR_KEY2]
      else []) ++
      (Ev.writeOPTCR (optMasked x) :: Ev.writeOPTCR (optStarted x) ::
        Ev.dsb :: r2.map Ev.readSR)))

/-- No option-key write among status-register read events. -/
lemma optkeyrWrites_readSRs (r : List Nat) :
    optkeyrWrites (r.map Ev.readSR) = [] := by
  induction r with
  | nil => rfl
  | cons a t ih => simp [optkeyrWrites, List.filter, ih]

/-- The option-key writes of the option-byte event block: the two keys
in order when the option-lock bit was set at entry, none otherwise. -/
lemma optkeyrWrites_optProgEvents (optcr0 x : Nat) (r1 r2 : List Nat) :
    optkeyrWrites (optProgEvents optcr0 x r1 r2) =
      if optcr0 &&& FLASH_OPTCR_OPTLOCK ≠ 0 then
        [Ev.writeOPTKEYR FLASH_OPTKEYR_KEY1,
         Ev.writeOPTKEYR FLASH_OPTKEYR_KEY2]
      else [] := by
  have h1 := optkeyrWrites_readSRs r1
  have h2 := optkeyrWrites_readSRs r2
  simp only [optkeyrWrites] at h1 h2
  by_cases hl : optcr0 &&& FLASH_OPTCR_OPTLOCK ≠ 0 <;>
    simp [optProgEvents, optkeyrWrites, List.filter_append, h1, h2,
      List.filter, hl]

/-- The low two bits of the masked option-byte value are zero. -/
lemma optMasked_low_bits (x : Nat) : optMasked x &&& 3 = 0 := by
  rw [optMasked, land_land, land_land,
    show (mask32 ^^^ 3) &&& (mask32 &&& 3) = 0 from by decide,
    Nat.and_zero]

/-- The option-start bit is set by the second option-control write. -/
lemma optStarted_start_bit (x : Nat) :
    optStarted x &&& FLASH_OPTCR_OPTSTRT = FLASH_OPTCR_OPTSTRT := by
  rw [optStarted, land_land,
    show mask32 &&& FLASH_OPTCR_OPTSTRT = FLASH_OPTCR_OPTSTRT from by
      decide, lor_land]
  have h2 : optMasked x &&& FLASH_OPTCR_OPTSTRT = 0 := by
    rw [show FLASH_OPTCR_OPTSTRT = 2 from rfl]
    exact land_subset_zero (optMasked_low_bits x) (by decide)
  rw [h2]
  rfl

/-- C8: flash_program_option_bytes waits idle; performs the
option-byte unlock (the two option keys 0x08192A3B then 0x4C5D6E7F
written to the option-key register) exactly when the option-lock bit
was set at entry; writes the datum with its low two bits masked to
zero to the option-control register strictly before the write that
sets the option-start bit; and waits idle at the end. -/
theorem claim_C8_option_bytes (s : St) (x : Nat) (srs : List Nat)
    (s1 : St) (rest : List Nat)
    (h : flash_program_option_bytes s x srs = some (s1, rest)) :
    ∃ r1 r2, WaitReads r1 ∧ WaitReads r2 ∧
      s1.tr = s.tr ++ optProgEvents s.optcr x r1 r2 ∧
      optkeyrWrites (optProgEvents s.optcr x r1 r2) =
        (if s.optcr &&& FLASH_OPTCR_OPTLOCK ≠ 0 then
          [Ev.writeOPTKEYR FLASH_OPTKEYR_KEY1,
           Ev.writeOPTKEYR FLASH_OPTKEYR_KEY2]
        else []) ∧
      optMasked x &&& 3 = 0 ∧
      optStarted x &&& FLASH_OPTCR_OPTSTRT = FLASH_OPTCR_OPTSTRT := by
  simp only [flash_program_option_bytes] at h
  cases h1 : flash_wait_for_last_operation s srs with
  | none => rw [h1] at h; simp at h
  | some p1 =>
    obtain ⟨sa, srs1⟩ := p1
    rw [h1] at h
    obtain ⟨pre1, v1, hsrs1, hacr1, hcr1, hopt1, htr1, hpre1, hv1⟩ :=
      wflo_spec h1
    simp only at h
    by_cases hl : sa.optcr &&& FLASH_OPTCR_OPTLOCK ≠ 0
    · rw [if_pos hl] at h
      cases h2 : flash_wait_for_last_operation
          (writeOPTCR (writeOPTCR (flash_unlock_option_bytes sa)
            ((x &&& mask32) &&& (mask32 ^^^ 3)))
              ((writeOPTCR (flash_unlock_option_bytes sa)
                ((x &&& mask32) &&& (mask32 ^^^ 3))).optcr |||
                  FLASH_OPTCR_OPTSTRT)) srs1 with
      | none => rw [h2] at h; simp at h
      | some p2 =>
        obtain ⟨sb, srs2⟩ := p2
        rw [h2] at h
        obtain ⟨pre2, v2, hsrs2, hacr2, hcr2, hopt2, htr2, hpre2, hv2⟩ :=
          wflo_spec h2
        simp only [Option.some.injEq, Prod.mk.injEq] at h
        obtain ⟨hs1, hrest⟩ := h
        rw [hopt1] at hl
        refine ⟨pre1 ++ [v1], pre2 ++ [v2],
          ⟨pre1, v1, rfl, hpre1, hv1⟩, ⟨pre2, v2, rfl, hpre2, hv2⟩, ?_,
          optkeyrWrites_optProgEvents s.optcr x (pre1 ++ [v1])
            (pre2 ++ [v2]) ▸ rfl,
          optMasked_low_bits x, optStarted_start_bit x⟩
        simp [← hs1, htr2, writeOPTCR, flash_unlock_option_bytes, emit,
          htr1, hopt1, optProgEvents, hl, optMasked, optStarted]
    · rw [if_neg hl] at h
      cases h2 : flash_wait_for_last_operation
          (writeOPTCR (writeOPTCR sa ((x &&& mask32) &&& (mask32 ^^^ 3)))
            ((writeOPTCR sa ((x &&& mask32) &&& (mask32 ^^^ 3))).optcr |||
              FLASH_OPTCR_OPTSTRT)) srs1 with
      | none => rw [h2] at h; simp at h
      | some p2 =>
        obtain ⟨sb, srs2⟩ := p2
        rw [h2] at h
        obtain ⟨pre2, v2, hsrs2, hacr2, hcr2, hopt2, htr2, hpre2, hv2⟩ :=
          wflo_spec h2
        simp only [Option.some.injEq, Prod.mk.injEq] at h
        obtain ⟨hs1, hrest⟩ := h
        rw [hopt1] at hl
        refine ⟨pre1 ++ [v1], pre2 ++ [v2],
          ⟨pre1, v1, rfl, hpre1, hv1⟩, ⟨pre2, v2, rfl, hpre2, hv2⟩, ?_,
          optkeyrWrites_optProgEvents s.optcr x (pre1 ++ [v1])
            (pre2 ++ [v2]) ▸ rfl,
          optMasked_low_bits x, optStarted_start_bit x⟩
        simp [← hs1, htr2, writeOPTCR, emit, htr1, hopt1,
          optProgEvents, hl, optMasked, optStarted]

/-- Witness for C8: the option-byte write of 0x0FFFAAFC from a locked
option controller. -/
theorem claim_C8_option_bytes_witness :
    ∃ r1 r2, WaitReads r1 ∧ WaitReads r2 ∧
      ([] : List Ev) ++ optProgEvents 1 268282620 [0] [0] =
        [] ++ optProgEvents 1 268282620 r1 r2 ∧
      optkeyrWrites (optProgEvents 1 268282620 r1 r2) =
        (if (1 : Nat) &&& FLASH_OPTCR_OPTLOCK ≠ 0 then
          [Ev.writeOPTKEYR FLASH_OPTKEYR_KEY1,
           Ev.writeOPTKEYR FLASH_OPTKEYR_KEY2]
        else []) ∧
      optMasked 268282620 &&& 3 = 0 ∧
      optStarted 268282620 &&& FLASH_OPTCR_OPTSTRT =
        FLASH_OPTCR_OPTSTRT :=
  claim_C8_option_bytes ⟨0, 0, 1, []⟩ 268282620 [0, 0]
    ⟨0, 0, optStarted 268282620, optProgEvents 1 268282620 [0] [0]⟩ []
    (by decide)

end FlashF7
